import Mathlib

/-!
Verification of the swipe-tracking engine (`SwipeTracking.py`) of the
hand-tracking-tab-swipe repository.

The embedding follows the source closely:
* positions are integer pairs (the source annotates points as `Tuple[int, int]`),
* timestamps are exact rationals (floats modelled exactly),
* distance-like quantities are real numbers built with `Real.sqrt`
  (the source calls `math.sqrt`),
* `atan2` is embedded as `Complex.arg`, whose defining case split is the
  standard two-argument arctangent,
* the per-entity dictionaries of the `SwipeTracker` class become functions
  from entity ids to `Option`-valued entries,
* `collections.deque(maxlen=n)` becomes a list with drop-oldest push.
-/

namespace SwipeTracking

/-- A 2-D point with integer coordinates, as in the source type hints. -/
abbrev Point := ℤ × ℤ

/-- Euclidean distance `math.sqrt((qx-px)**2 + (qy-py)**2)` between
two integer points, as a real number. -/
noncomputable def distR (p q : Point) : ℝ :=
  Real.sqrt (((q.1 - p.1) ^ 2 + (q.2 - p.2) ^ 2 : ℤ) : ℝ)

/-- Two-argument arctangent `math.atan2(y, x)`: the argument of the complex
number `x + y*I`, in `(-π, π]`. -/
noncomputable def atan2 (y x : ℝ) : ℝ := Complex.arg ⟨x, y⟩

/-- The eight-way classifier of `SwipeTracker._get_swipe_direction`
(lines 138-153), as a function of the angle in degrees: the exact
`if`/`elif` chain of the source. -/
noncomputable def classifyAngleDeg (angle : ℝ) : String :=
  if -22.5 ≤ angle ∧ angle ≤ 22.5 then "right"
  else if 22.5 < angle ∧ angle ≤ 67.5 then "down-right"
  else if 67.5 < angle ∧ angle ≤ 112.5 then "down"
  else if 112.5 < angle ∧ angle ≤ 157.5 then "down-left"
  else if 157.5 < angle ∨ angle ≤ -157.5 then "left"
  else if -157.5 < angle ∧ angle ≤ -112.5 then "up-left"
  else if -112.5 < angle ∧ angle ≤ -67.5 then "up"
  else "up-right"

/-- `SwipeTracker._get_swipe_direction`: compute the angle of the
displacement in degrees and classify it. -/
noncomputable def getSwipeDirection (start endP : Point) : String :=
  classifyAngleDeg
    (atan2 ((endP.2 - start.2 : ℤ) : ℝ) ((endP.1 - start.1 : ℤ) : ℝ) * 180 / Real.pi)

/-- Total path length of a trail: the sum of the lengths of consecutive
segments, as in the loop of `SwipeTracker._calculate_smoothness`. -/
noncomputable def pathLen : List Point → ℝ
  | a :: b :: rest => distR a b + pathLen (b :: rest)
  | _ => 0

open scoped Classical

/-- `SwipeTracker._calculate_smoothness` (lines 155-176): ratio of the
straight-line distance between the first and last point to the total path
length, clamped to 1; 0 for degenerate trails. -/
noncomputable def calcSmoothness (trail : List Point) : ℝ :=
  if trail.length < 3 then 0
  else if distR (trail.headD (0, 0)) (trail.getLastD (0, 0)) = 0 then 0
  else if pathLen trail > 0 then
    min (distR (trail.headD (0, 0)) (trail.getLastD (0, 0)) / pathLen trail) 1
  else 0

/-- The swipe-information dictionary built by `SwipeTracker._analyze_trail`. -/
structure SwipeData where
  finger_id : ℤ
  start : Point
  endP : Point
  distance : ℝ
  velocity : ℝ
  direction : String
  smoothness : ℝ
  duration : ℚ
  timestamp : ℚ

/-- `SwipeTracker._analyze_trail` (lines 86-121): extract the swipe
characteristics of a trail, or `none` when the trail is too short or the
time span is degenerate. -/
noncomputable def analyzeTrail (trail : List Point) (times : List ℚ) (fid : ℤ) :
    Option SwipeData :=
  if trail.length < 3 ∨ times.length < 3 then none
  else if times.getLastD 0 - times.headD 0 ≤ 0 then none
  else some {
    finger_id := fid
    start := trail.headD (0, 0)
    endP := trail.getLastD (0, 0)
    distance := distR (trail.headD (0, 0)) (trail.getLastD (0, 0))
    velocity := distR (trail.headD (0, 0)) (trail.getLastD (0, 0)) /
      ((times.getLastD 0 - times.headD 0 : ℚ) : ℝ)
    direction := getSwipeDirection (trail.headD (0, 0)) (trail.getLastD (0, 0))
    smoothness := calcSmoothness trail
    duration := times.getLastD 0 - times.headD 0
    timestamp := times.getLastD 0 }

/-- The mutable state of a `SwipeTracker` instance: the per-entity
dictionaries become `Option`-valued functions, the configuration fields are
immutable after construction. -/
structure TrackerState where
  finger_trails : ℤ → Option (List Point)
  finger_times : ℤ → Option (List ℚ)
  last_update_time : ℤ → Option ℚ
  active_gestures : ℤ → Option Bool
  last_swipe_time : ℤ → Option ℚ
  max_points : ℤ
  min_distance : ℝ
  min_velocity : ℝ
  trail_timeout : ℚ
  swipe_cooldown : ℚ

/-- `SwipeTracker.__init__` (lines 14-37): stores the four configuration
arguments, starts with empty dictionaries and the hard-coded cooldown of
2 seconds.  The constructor performs no validation whatsoever. -/
def init (max_points : ℤ) (min_distance min_velocity : ℝ) (trail_timeout : ℚ) :
    TrackerState where
  finger_trails := fun _ => none
  finger_times := fun _ => none
  last_update_time := fun _ => none
  active_gestures := fun _ => none
  last_swipe_time := fun _ => none
  max_points := max_points
  min_distance := min_distance
  min_velocity := min_velocity
  trail_timeout := trail_timeout
  swipe_cooldown := 2

/-- Append to a `collections.deque(maxlen=m)`: push on the right, drop from
the left anything over capacity. -/
def pushMaxlen {α : Type} (l : List α) (x : α) (m : ℤ) : List α :=
  if ((l ++ [x]).length : ℤ) > m then (l ++ [x]).drop ((l ++ [x]).length - m.toNat)
  else l ++ [x]

/-- `SwipeTracker.add_point` (lines 39-52): lazily create the entity's
trail bookkeeping (`last_swipe_time` starts at `0`), append the point and
its timestamp, record the update time. -/
def addPoint (s : TrackerState) (fid : ℤ) (p : Point) (now : ℚ) : TrackerState :=
  let s' :=
    if (s.finger_trails fid).isSome then s
    else
      { s with
        finger_trails := Function.update s.finger_trails fid (some [])
        finger_times := Function.update s.finger_times fid (some [])
        active_gestures := Function.update s.active_gestures fid (some false)
        last_swipe_time := Function.update s.last_swipe_time fid (some 0) }
  { s' with
    finger_trails := Function.update s'.finger_trails fid
      (some (pushMaxlen ((s'.finger_trails fid).getD []) p s.max_points))
    finger_times := Function.update s'.finger_times fid
      (some (pushMaxlen ((s'.finger_times fid).getD []) now s.max_points))
    last_update_time := Function.update s'.last_update_time fid (some now) }

/-- `SwipeTracker._is_valid_trail` (lines 81-84): the entity is known and
its trail holds at least 3 points. -/
def isValidTrail (s : TrackerState) (fid : ℤ) : Bool :=
  match s.finger_trails fid with
  | none => false
  | some t => decide (3 ≤ t.length)

/-- `SwipeTracker._validate_swipe` (lines 123-127): all three thresholds
must be strictly exceeded (the smoothness threshold is hard-coded 0.3). -/
def validateSwipe (s : TrackerState) (d : SwipeData) : Prop :=
  d.distance > s.min_distance ∧ d.velocity > s.min_velocity ∧ d.smoothness > 0.3

/-- `SwipeTracker.detect_swipe` (lines 54-79), with the wall-clock reading
`time.time()` passed in as `now`.  Returns the optional event together with
the post-call state: `last_swipe_time` is set to `now` exactly on success. -/
noncomputable def detectSwipe (s : TrackerState) (fid : ℤ) (now : ℚ) :
    Option SwipeData × TrackerState :=
  if ¬ isValidTrail s fid then (none, s)
  else if now - (s.last_swipe_time fid).getD 0 < s.swipe_cooldown then (none, s)
  else
    match analyzeTrail ((s.finger_trails fid).getD []) ((s.finger_times fid).getD []) fid with
    | none => (none, s)
    | some d =>
      if validateSwipe s d then
        (some d,
         { s with last_swipe_time := Function.update s.last_swipe_time fid (some now) })
      else (none, s)

/-- Staleness test of `SwipeTracker.cleanup_inactive_trails`: the entity
has an update record older than `trail_timeout`. -/
def isStale (s : TrackerState) (now : ℚ) (e : ℤ) : Bool :=
  match s.last_update_time e with
  | none => false
  | some t => decide (now - t > s.trail_timeout)

/-- `SwipeTracker.cleanup_inactive_trails` (lines 189-199): run
`clear_trail` on every stale entity.  `clear_trail` empties the sample and
time buffers of a known entity and touches nothing else. -/
def cleanupInactiveTrails (s : TrackerState) (now : ℚ) : TrackerState :=
  { s with
    finger_trails := fun e =>
      if isStale s now e then (s.finger_trails e).map (fun _ => []) else s.finger_trails e
    finger_times := fun e =>
      if isStale s now e ∧ (s.finger_trails e).isSome then
        (s.finger_times e).map (fun _ => [])
      else s.finger_times e }

/-- A batch of `add_point` calls: `(entity, point, timestamp)` triples. -/
def applyOps (s : TrackerState) (ops : List (ℤ × Point × ℚ)) : TrackerState :=
  ops.foldl (fun st op => addPoint st op.1 op.2.1 op.2.2) s

/-- Integer dot product of two 2-D vectors. -/
def dotZ (u w : ℤ × ℤ) : ℤ := u.1 * w.1 + u.2 * w.2

/-- Sum over consecutive trail segments of the dot product with `w`. -/
def segDotSum (w : ℤ × ℤ) : List Point → ℤ
  | a :: b :: rest => dotZ (b.1 - a.1, b.2 - a.2) w + segDotSum w (b :: rest)
  | _ => 0

/-- A trail doubles back when some consecutive segment moves against the
overall start-to-end displacement (negative dot product with it). -/
def doublesBack (trail : List Point) : Prop :=
  ∃ pr ∈ trail.zip trail.tail,
    dotZ (pr.2.1 - pr.1.1, pr.2.2 - pr.1.2)
      ((trail.getLastD (0, 0)).1 - (trail.headD (0, 0)).1,
       (trail.getLastD (0, 0)).2 - (trail.headD (0, 0)).2) < 0

/-- `q` lies on the segment from `p` to `r`: the displacements are parallel
(zero cross product) and the projection of `q - p` on `r - p` is between 0
and `|r - p|²` — a collinear, monotonic 3-point configuration. -/
def Between (p q r : Point) : Prop :=
  (q.1 - p.1) * (r.2 - p.2) - (q.2 - p.2) * (r.1 - p.1) = 0 ∧
  0 ≤ dotZ (q.1 - p.1, q.2 - p.2) (r.1 - p.1, r.2 - p.2) ∧
  dotZ (q.1 - p.1, q.2 - p.2) (r.1 - p.1, r.2 - p.2)
    ≤ dotZ (r.1 - p.1, r.2 - p.2) (r.1 - p.1, r.2 - p.2)

/-- The smoothness formula exactly as the spec words it: the ratio of the
straight-line distance to the summed segment lengths, clamped to 1, and 0
when either quantity is zero. -/
noncomputable def smoothnessSpec (trail : List Point) : ℝ :=
  if distR (trail.headD (0, 0)) (trail.getLastD (0, 0)) = 0 ∨ pathLen trail = 0 then 0
  else min (distR (trail.headD (0, 0)) (trail.getLastD (0, 0)) / pathLen trail) 1

/-! ### Concrete example states -/

/-- The spec's scenario: points `(0,0)@0, (30,0)@0.2, (60,0)@0.4` pushed for
entity 8 on a tracker configured with `max_points=10, min_distance=40,
min_velocity=50, trail_timeout=2`. -/
def origScenario : TrackerState :=
  applyOps (init 10 40 50 2)
    [(8, ((0 : ℤ), (0 : ℤ)), 0), (8, (30, 0), 1/5), (8, (60, 0), 2/5)]

/-- Same motion for entity 5, used to exhibit the cooldown gate blocking a
freshly created entity at small wall-clock times. -/
def blockedState : TrackerState :=
  applyOps (init 10 40 50 2)
    [(5, ((0 : ℤ), (0 : ℤ)), 0), (5, (30, 0), 1/5), (5, (60, 0), 2/5)]

/-- The spec's scenario shifted 2 seconds later, so that the cooldown gate
(seeded at 0 by `add_point`) lets the swipe through. -/
def shiftedScenario : TrackerState :=
  applyOps (init 10 40 50 2)
    [(8, ((0 : ℤ), (0 : ℤ)), 2), (8, (30, 0), 11/5), (8, (60, 0), 12/5)]

/-- The event the shifted scenario emits. -/
noncomputable def shiftedEvent : SwipeData where
  finger_id := 8
  start := (0, 0)
  endP := (60, 0)
  distance := 60
  velocity := 150
  direction := "right"
  smoothness := 1
  duration := 2/5
  timestamp := 12/5

/-- The state after the shifted scenario's swipe is accepted at `t = 2.4`. -/
def shiftedAfter : TrackerState :=
  { shiftedScenario with
    last_swipe_time := Function.update shiftedScenario.last_swipe_time 8 (some (12/5)) }

/-- A slow 3-point trail for entity 2: analysis succeeds but the distance
threshold fails. -/
def slowState : TrackerState :=
  applyOps (init 10 40 50 2)
    [(2, ((0 : ℤ), (0 : ℤ)), 0), (2, (1, 0), 1/10), (2, (2, 0), 1/5)]

/-- The analysis result of the slow trail. -/
noncomputable def slowData : SwipeData where
  finger_id := 2
  start := (0, 0)
  endP := (2, 0)
  distance := distR (0, 0) (2, 0)
  velocity := distR (0, 0) (2, 0) / (((1 : ℚ)/5 - 0 : ℚ) : ℝ)
  direction := getSwipeDirection (0, 0) (2, 0)
  smoothness := calcSmoothness [(0, 0), (1, 0), (2, 0)]
  duration := 1/5 - 0
  timestamp := 1/5

/-- Two entities, one last updated at 0 and one at 9, used to exercise the
reaper at `now = 10` with `trail_timeout = 2`. -/
def reapState : TrackerState :=
  applyOps (init 10 40 50 2)
    [(1, ((0 : ℤ), (0 : ℤ)), 0), (2, ((0 : ℤ), (0 : ℤ)), 9)]

/-- Four pushes for entity 1 on a capacity-3 tracker. -/
def fifoOps : List (ℤ × Point × ℚ) :=
  [(1, ((0 : ℤ), (0 : ℤ)), 0), (1, (1, 0), 0), (1, (2, 0), 0), (1, (3, 0), 0)]

/-! ### Branch characterizations of `detectSwipe` -/

theorem detectSwipe_of_invalid (s : TrackerState) (fid : ℤ) (now : ℚ)
    (h : ¬ isValidTrail s fid = true) :
    detectSwipe s fid now = (none, s) := by
  unfold detectSwipe
  rw [if_pos h]

theorem detectSwipe_of_cooldown (s : TrackerState) (fid : ℤ) (now : ℚ)
    (h : now - (s.last_swipe_time fid).getD 0 < s.swipe_cooldown) :
    detectSwipe s fid now = (none, s) := by
  unfold detectSwipe
  by_cases h1 : isValidTrail s fid = true
  · rw [if_neg (not_not_intro h1), if_pos h]
  · rw [if_pos h1]

theorem detectSwipe_of_analyze_none (s : TrackerState) (fid : ℤ) (now : ℚ)
    (h1 : isValidTrail s fid = true)
    (h2 : ¬ now - (s.last_swipe_time fid).getD 0 < s.swipe_cooldown)
    (h3 : analyzeTrail ((s.finger_trails fid).getD []) ((s.finger_times fid).getD []) fid
      = none) :
    detectSwipe s fid now = (none, s) := by
  unfold detectSwipe
  rw [if_neg (not_not_intro h1), if_neg h2, h3]

theorem detectSwipe_of_invalid_swipe (s : TrackerState) (fid : ℤ) (now : ℚ) (d : SwipeData)
    (h3 : analyzeTrail ((s.finger_trails fid).getD []) ((s.finger_times fid).getD []) fid
      = some d)
    (h4 : ¬ validateSwipe s d) :
    detectSwipe s fid now = (none, s) := by
  unfold detectSwipe
  by_cases h1 : isValidTrail s fid = true
  · by_cases h2 : now - (s.last_swipe_time fid).getD 0 < s.swipe_cooldown
    · rw [if_neg (not_not_intro h1), if_pos h2]
    · rw [if_neg (not_not_intro h1), if_neg h2, h3]
      exact if_neg h4
  · rw [if_pos h1]

theorem detectSwipe_of_success (s : TrackerState) (fid : ℤ) (now : ℚ) (d : SwipeData)
    (h1 : isValidTrail s fid = true)
    (h2 : ¬ now - (s.last_swipe_time fid).getD 0 < s.swipe_cooldown)
    (h3 : analyzeTrail ((s.finger_trails fid).getD []) ((s.finger_times fid).getD []) fid
      = some d)
    (h4 : validateSwipe s d) :
    detectSwipe s fid now =
      (some d,
       { s with last_swipe_time := Function.update s.last_swipe_time fid (some now) }) := by
  unfold detectSwipe
  rw [if_neg (not_not_intro h1), if_neg h2, h3]
  exact if_pos h4

/-- C1 counterexample: the claim asserts that an angle of exactly 22.5°
classifies as "down-right"; in the code the first branch
`-22.5 <= angle <= 22.5` is inclusive at both ends, so 22.5° classifies as
"right". -/
theorem classify_at_225_not_down_right :
    classifyAngleDeg 22.5 = "right" ∧ ("right" : String) ≠ "down-right" := by
  constructor
  · unfold classifyAngleDeg
    rw [if_pos (by norm_num)]
  · decide

/-- C1 (amended): the direction classifier is the composition of
`atan2`-to-degrees with the 45°-sector table, and each sector boundary is
closed on the counterclockwise (higher-angle) edge, the "right" sector
being closed at both ends: exactly −22.5° and 22.5° yield "right", 67.5°
yields "down-right", 112.5° yields "down", 157.5° yields "down-left",
−157.5° yields "left", −112.5° yields "up-left", −67.5° yields "up", and
±180° yields "left". -/
theorem direction_boundary_table :
    (∀ s e : Point, getSwipeDirection s e =
      classifyAngleDeg (atan2 ((e.2 - s.2 : ℤ) : ℝ) ((e.1 - s.1 : ℤ) : ℝ) * 180 / Real.pi)) ∧
    classifyAngleDeg (-22.5) = "right" ∧
    classifyAngleDeg 22.5 = "right" ∧
    classifyAngleDeg 67.5 = "down-right" ∧
    classifyAngleDeg 112.5 = "down" ∧
    classifyAngleDeg 157.5 = "down-left" ∧
    classifyAngleDeg (-157.5) = "left" ∧
    classifyAngleDeg (-112.5) = "up-left" ∧
    classifyAngleDeg (-67.5) = "up" ∧
    classifyAngleDeg 180 = "left" ∧
    classifyAngleDeg (-180) = "left" := by
  refine ⟨fun s e => rfl, ?_, ?_, ?_, ?_, ?_, ?_, ?_, ?_, ?_, ?_⟩ <;> unfold classifyAngleDeg
  · rw [if_pos (by norm_num)]
  · rw [if_pos (by norm_num)]
  · rw [if_neg (by norm_num), if_pos (by norm_num)]
  · rw [if_neg (by norm_num), if_neg (by norm_num), if_pos (by norm_num)]
  · rw [if_neg (by norm_num), if_neg (by norm_num), if_neg (by norm_num),
      if_pos (by norm_num)]
  · rw [if_neg (by norm_num), if_neg (by norm_num), if_neg (by norm_num),
      if_neg (by norm_num), if_pos (by norm_num)]
  · rw [if_neg (by norm_num), if_neg (by norm_num), if_neg (by norm_num),
      if_neg (by norm_num), if_neg (by norm_num), if_pos (by norm_num)]
  · rw [if_neg (by norm_num), if_neg (by norm_num), if_neg (by norm_num),
      if_neg (by norm_num), if_neg (by norm_num), if_neg (by norm_num),
      if_pos (by norm_num)]
  · rw [if_neg (by norm_num), if_neg (by norm_num), if_neg (by norm_num),
      if_neg (by norm_num), if_pos (by norm_num)]
  · rw [if_neg (by norm_num), if_neg (by norm_num), if_neg (by norm_num),
      if_neg (by norm_num), if_pos (by norm_num)]

/-! ### Helper computations -/

theorem distR_of_sq (p q : Point) (n : ℝ) (hn : 0 ≤ n)
    (h : (((q.1 - p.1) ^ 2 + (q.2 - p.2) ^ 2 : ℤ) : ℝ) = n ^ 2) : distR p q = n := by
  unfold distR
  rw [h, Real.sqrt_sq hn]

/-- C8 (the constructor never fails): constructing the tracker with
`max_points = 0` and negative thresholds succeeds silently and stores the
invalid configuration verbatim — there is no validation of any kind in
`SwipeTracker.__init__`. -/
theorem init_accepts_invalid_config :
    (init 0 (-1) (-1) (-1)).max_points = 0 ∧
    (init 0 (-1) (-1) (-1)).min_distance = -1 ∧
    (init 0 (-1) (-1) (-1)).min_velocity = -1 ∧
    (init 0 (-1) (-1) (-1)).trail_timeout = -1 ∧
    (init 0 (-1) (-1) (-1)).swipe_cooldown = 2 ∧
    (init 0 (-1) (-1) (-1)).finger_trails 0 = none :=
  ⟨rfl, rfl, rfl, rfl, rfl, rfl⟩

/-- C5 (amended): `add_point` on a previously-unseen entity initializes
`last_swipe_time` to `0` (not `-∞`); consequently a freshly created entity
is subject to the cooldown gate whenever `now < swipe_cooldown`. -/
theorem addPoint_fresh_last_swipe_zero (s : TrackerState) (fid : ℤ) (p : Point) (now : ℚ)
    (h : s.finger_trails fid = none) :
    (addPoint s fid p now).last_swipe_time fid = some 0 := by
  simp [addPoint, h]

theorem addPoint_fresh_last_swipe_zero_witness :
    (addPoint (init 10 40 50 2) 8 (0, 0) 0).last_swipe_time 8 = some 0 :=
  addPoint_fresh_last_swipe_zero (init 10 40 50 2) 8 (0, 0) 0 rfl

/-- C5 counterexample: for entity 5, freshly created by `add_point` with
points pushed at times 0, 0.2, 0.4, the stored `last_swipe_time` is `0`
(a finite value, not `-∞`), and the cooldown gate does block the fresh
entity: `detect_swipe` at `now = 0.4` returns no event because
`0.4 - 0 < 2.0`. -/
theorem fresh_entity_blocked_by_cooldown :
    blockedState.last_swipe_time 5 = some 0 ∧
    detectSwipe blockedState 5 (2/5) = (none, blockedState) := by
  refine ⟨rfl, detectSwipe_of_cooldown _ _ _ ?_⟩
  show (2 : ℚ)/5 - (0 : ℚ) < 2
  norm_num

/-- C7: whenever the analyzed trail fails any of the three validation
thresholds, `detect_swipe` returns no event and leaves the state — in
particular the entity's `last_swipe_time` — unchanged. -/
theorem detectSwipe_validation_failure (s : TrackerState) (fid : ℤ) (now : ℚ)
    (d : SwipeData)
    (h3 : analyzeTrail ((s.finger_trails fid).getD []) ((s.finger_times fid).getD []) fid
      = some d)
    (h4 : ¬ validateSwipe s d) :
    detectSwipe s fid now = (none, s) ∧
    (detectSwipe s fid now).2.last_swipe_time = s.last_swipe_time := by
  have h := detectSwipe_of_invalid_swipe s fid now d h3 h4
  exact ⟨h, by rw [h]⟩

theorem detectSwipe_validation_failure_witness :
    detectSwipe slowState 2 (1/5) = (none, slowState) := by
  have hA : analyzeTrail ((slowState.finger_trails 2).getD [])
      ((slowState.finger_times 2).getD []) 2 = some slowData := by
    unfold analyzeTrail
    rw [if_neg (by decide)]
    show (if (1 : ℚ)/5 - 0 ≤ 0 then none else some slowData) = some slowData
    rw [if_neg (by norm_num)]
  have hdist : distR (0, 0) (2, 0) = 2 := distR_of_sq _ _ 2 (by norm_num) (by norm_num)
  have hv : ¬ validateSwipe slowState slowData := by
    intro h
    have h1 : distR (0, 0) (2, 0) > (40 : ℝ) := h.1
    rw [hdist] at h1
    norm_num at h1
  exact (detectSwipe_validation_failure slowState 2 (1/5) slowData hA hv).1

/-- C9: `cleanup_inactive_trails` empties the sample buffer of exactly the
entities whose `last_update_time` is more than `trail_timeout` before
`now`, leaves every other entity's buffer unchanged, and never touches
`last_update_time` or `last_swipe_time`. -/
theorem cleanup_reaps_exactly_stale (s : TrackerState) (now : ℚ) (e : ℤ) :
    (∀ t, s.last_update_time e = some t → now - t > s.trail_timeout →
      (cleanupInactiveTrails s now).finger_trails e
        = (s.finger_trails e).map (fun _ => [])) ∧
    (∀ t, s.last_update_time e = some t → ¬ now - t > s.trail_timeout →
      (cleanupInactiveTrails s now).finger_trails e = s.finger_trails e ∧
      (cleanupInactiveTrails s now).finger_times e = s.finger_times e) ∧
    (s.last_update_time e = none →
      (cleanupInactiveTrails s now).finger_trails e = s.finger_trails e ∧
      (cleanupInactiveTrails s now).finger_times e = s.finger_times e) ∧
    (cleanupInactiveTrails s now).last_update_time = s.last_update_time ∧
    (cleanupInactiveTrails s now).last_swipe_time = s.last_swipe_time := by
  refine ⟨?_, ?_, ?_, rfl, rfl⟩
  · intro t ht hstale
    have hst : isStale s now e = true := by simp [isStale, ht, hstale]
    simp [cleanupInactiveTrails, hst]
  · intro t ht hfresh
    have hst : isStale s now e = false := by simp [isStale, ht, hfresh]
    simp [cleanupInactiveTrails, hst]
  · intro h
    have hst : isStale s now e = false := by simp [isStale, h]
    simp [cleanupInactiveTrails, hst]

theorem cleanup_reaps_exactly_stale_witness :
    (cleanupInactiveTrails reapState 10).finger_trails 1
      = (reapState.finger_trails 1).map (fun _ => []) ∧
    (cleanupInactiveTrails reapState 10).finger_trails 2 = reapState.finger_trails 2 := by
  constructor
  · exact (cleanup_reaps_exactly_stale reapState 10 1).1 0 rfl
      (by show (10 : ℚ) - 0 > 2; norm_num)
  · exact ((cleanup_reaps_exactly_stale reapState 10 2).2.1 9 rfl
      (by show ¬ (10 : ℚ) - 9 > 2; norm_num)).1

/-- C10: `detect_swipe` never modifies any entity's sample or timestamp
buffer, nor `last_update_time`; when it emits no event the state is
entirely unchanged, and in every case the only entry it may change is the
queried entity's `last_swipe_time`. -/
theorem detectSwipe_frame (s : TrackerState) (fid : ℤ) (now : ℚ) :
    (detectSwipe s fid now).2.finger_trails = s.finger_trails ∧
    (detectSwipe s fid now).2.finger_times = s.finger_times ∧
    (detectSwipe s fid now).2.last_update_time = s.last_update_time ∧
    (detectSwipe s fid now).2.active_gestures = s.active_gestures ∧
    ((detectSwipe s fid now).1 = none → (detectSwipe s fid now).2 = s) ∧
    ∀ e, e ≠ fid → (detectSwipe s fid now).2.last_swipe_time e = s.last_swipe_time e := by
  unfold detectSwipe
  split
  · exact ⟨rfl, rfl, rfl, rfl, fun _ => rfl, fun e _ => rfl⟩
  · split
    · exact ⟨rfl, rfl, rfl, rfl, fun _ => rfl, fun e _ => rfl⟩
    · split
      · exact ⟨rfl, rfl, rfl, rfl, fun _ => rfl, fun e _ => rfl⟩
      · split
        · refine ⟨rfl, rfl, rfl, rfl, fun hc => ?_, fun e he => ?_⟩
          · exact absurd hc (by simp)
          · exact Function.update_noteq he _ _
        · exact ⟨rfl, rfl, rfl, rfl, fun _ => rfl, fun e _ => rfl⟩

theorem detectSwipe_frame_witness :
    (detectSwipe (init 10 40 50 2) 3 0).2 = init 10 40 50 2 ∧
    (detectSwipe (init 10 40 50 2) 3 0).2.last_swipe_time 7
      = (init 10 40 50 2).last_swipe_time 7 := by
  have hnone : (detectSwipe (init 10 40 50 2) 3 0).1 = none := by
    rw [detectSwipe_of_invalid (init 10 40 50 2) 3 0 (by decide)]
  exact ⟨(detectSwipe_frame (init 10 40 50 2) 3 0).2.2.2.2.1 hnone,
    (detectSwipe_frame (init 10 40 50 2) 3 0).2.2.2.2.2 7 (by decide)⟩

theorem atan2_zero_of_nonneg (x : ℝ) (hx : 0 ≤ x) : atan2 0 x = 0 := by
  unfold atan2
  have h : (⟨x, 0⟩ : ℂ) = (x : ℂ) := rfl
  rw [h]
  exact Complex.arg_ofReal_of_nonneg hx

theorem getSwipeDirection_right (p q : Point) (hy : q.2 = p.2) (hx : p.1 ≤ q.1) :
    getSwipeDirection p q = "right" := by
  unfold getSwipeDirection
  have hdy : ((q.2 - p.2 : ℤ) : ℝ) = 0 := by rw [hy]; simp
  have hdx : (0 : ℝ) ≤ ((q.1 - p.1 : ℤ) : ℝ) := by
    have : (0 : ℤ) ≤ q.1 - p.1 := by omega
    exact_mod_cast this
  rw [hdy, atan2_zero_of_nonneg _ hdx, zero_mul, zero_div]
  unfold classifyAngleDeg
  rw [if_pos (by norm_num)]

theorem distR_sixty : distR ((0 : ℤ), (0 : ℤ)) (60, 0) = 60 :=
  distR_of_sq _ _ 60 (by norm_num) (by norm_num)

theorem distR_thirty_a : distR ((0 : ℤ), (0 : ℤ)) (30, 0) = 30 :=
  distR_of_sq _ _ 30 (by norm_num) (by norm_num)

theorem distR_thirty_b : distR ((30 : ℤ), (0 : ℤ)) (60, 0) = 30 :=
  distR_of_sq _ _ 30 (by norm_num) (by norm_num)

theorem pathLen_shifted :
    pathLen [((0 : ℤ), (0 : ℤ)), (30, 0), (60, 0)] = 60 := by
  show distR (0, 0) (30, 0) + (distR (30, 0) (60, 0) + 0) = 60
  rw [distR_thirty_a, distR_thirty_b]
  norm_num

theorem smoothness_shifted :
    calcSmoothness [((0 : ℤ), (0 : ℤ)), (30, 0), (60, 0)] = 1 := by
  unfold calcSmoothness
  rw [if_neg (by decide)]
  show (if distR ((0 : ℤ), (0 : ℤ)) (60, 0) = 0 then 0
        else if pathLen [((0 : ℤ), (0 : ℤ)), (30, 0), (60, 0)] > 0 then
          min (distR ((0 : ℤ), (0 : ℤ)) (60, 0) /
            pathLen [((0 : ℤ), (0 : ℤ)), (30, 0), (60, 0)]) 1
        else 0) = 1
  rw [distR_sixty, pathLen_shifted, if_neg (by norm_num), if_pos (by norm_num)]
  norm_num

theorem analyze_shifted :
    analyzeTrail [((0 : ℤ), (0 : ℤ)), (30, 0), (60, 0)] [2, 11/5, 12/5] 8
      = some shiftedEvent := by
  unfold analyzeTrail
  rw [if_neg (by decide)]
  show (if (12 : ℚ)/5 - 2 ≤ 0 then none
        else some {
          finger_id := 8
          start := ((0 : ℤ), (0 : ℤ))
          endP := (60, 0)
          distance := distR ((0 : ℤ), (0 : ℤ)) (60, 0)
          velocity := distR ((0 : ℤ), (0 : ℤ)) (60, 0) / (((12 : ℚ)/5 - 2 : ℚ) : ℝ)
          direction := getSwipeDirection ((0 : ℤ), (0 : ℤ)) (60, 0)
          smoothness := calcSmoothness [((0 : ℤ), (0 : ℤ)), (30, 0), (60, 0)]
          duration := 12/5 - 2
          timestamp := 12/5 }) = some shiftedEvent
  rw [if_neg (by norm_num)]
  have hvel : distR ((0 : ℤ), (0 : ℤ)) (60, 0) / (((12 : ℚ)/5 - 2 : ℚ) : ℝ) = 150 := by
    rw [distR_sixty]
    rw [show ((12 : ℚ)/5 - 2 : ℚ) = 2/5 by norm_num]
    push_cast
    norm_num
  rw [hvel, distR_sixty, getSwipeDirection_right ((0 : ℤ), (0 : ℤ)) ((60 : ℤ), (0 : ℤ)) rfl (by norm_num), smoothness_shifted,
    show ((12 : ℚ)/5 - 2 : ℚ) = 2/5 by norm_num]
  rfl

theorem shifted_accept :
    detectSwipe shiftedScenario 8 (12/5) = (some shiftedEvent, shiftedAfter) := by
  have h2 : ¬ (12 : ℚ)/5 - (shiftedScenario.last_swipe_time 8).getD 0
      < shiftedScenario.swipe_cooldown := by
    show ¬ (12 : ℚ)/5 - 0 < 2
    norm_num
  have h4 : validateSwipe shiftedScenario shiftedEvent := by
    refine ⟨?_, ?_, ?_⟩
    · show (60 : ℝ) > 40; norm_num
    · show (150 : ℝ) > 50; norm_num
    · show (1 : ℝ) > 0.3; norm_num
  exact detectSwipe_of_success shiftedScenario 8 (12/5) shiftedEvent rfl h2 analyze_shifted h4

/-- C3 counterexample: with the claim's exact inputs — points pushed at
times 0, 0.2, 0.4 for fresh entity 8 and `detect_swipe(8, 0.4)` — the code
returns no event: `add_point` seeded `last_swipe_time` with 0, so the
cooldown gate fires (`0.4 - 0 < 2.0`). -/
theorem scenario_at_04_blocked :
    detectSwipe origScenario 8 (2/5) = (none, origScenario) := by
  refine detectSwipe_of_cooldown _ _ _ ?_
  show (2 : ℚ)/5 - (0 : ℚ) < 2
  norm_num

/-- C3 (amended): the scenario succeeds once it is out of the initial
cooldown window: pushing `(0,0)@2.0, (30,0)@2.2, (60,0)@2.4` for fresh
entity 8 and calling `detect_swipe(8, 2.4)` yields a swipe event with
distance 60, velocity 150, smoothness 1 and direction "right". -/
theorem scenario_shifted_returns_swipe :
    detectSwipe shiftedScenario 8 (12/5) = (some shiftedEvent, shiftedAfter) ∧
    shiftedEvent.distance = 60 ∧ shiftedEvent.velocity = 150 ∧
    shiftedEvent.smoothness = 1 ∧ shiftedEvent.direction = "right" ∧
    shiftedEvent.start = (0, 0) ∧ shiftedEvent.endP = (60, 0) :=
  ⟨shifted_accept, rfl, rfl, rfl, rfl, rfl, rfl⟩

theorem isValidTrail_isSome (s : TrackerState) (fid : ℤ)
    (h : isValidTrail s fid = true) : (s.finger_trails fid).isSome = true := by
  unfold isValidTrail at h
  cases hx : s.finger_trails fid with
  | none => rw [hx] at h; exact absurd h (by simp)
  | some t => rfl

theorem addPoint_preserves (s : TrackerState) (g fid : ℤ) (p : Point) (now : ℚ)
    (h : (s.finger_trails fid).isSome = true) :
    ((addPoint s g p now).finger_trails fid).isSome = true ∧
    (addPoint s g p now).last_swipe_time fid = s.last_swipe_time fid ∧
    (addPoint s g p now).swipe_cooldown = s.swipe_cooldown := by
  by_cases hg : g = fid
  · subst hg
    simp [addPoint, h]
  · have hfg : fid ≠ g := fun hh => hg hh.symm
    by_cases hsome : (s.finger_trails g).isSome
    · simp [addPoint, hsome, Function.update_noteq hfg, h]
    · simp [addPoint, hsome, Function.update_noteq hfg, h]

theorem applyOps_preserves (ops : List (ℤ × Point × ℚ)) (s : TrackerState) (fid : ℤ)
    (h : (s.finger_trails fid).isSome = true) :
    ((applyOps s ops).finger_trails fid).isSome = true ∧
    (applyOps s ops).last_swipe_time fid = s.last_swipe_time fid ∧
    (applyOps s ops).swipe_cooldown = s.swipe_cooldown := by
  induction ops generalizing s with
  | nil => exact ⟨h, rfl, rfl⟩
  | cons op rest ih =>
    have step := addPoint_preserves s op.1 fid op.2.1 op.2.2 h
    have tail := ih (addPoint s op.1 op.2.1 op.2.2) step.1
    exact ⟨tail.1, tail.2.1.trans step.2.1, tail.2.2.trans step.2.2⟩

/-- C2: the cooldown law.  If `detect_swipe` accepted a swipe for an entity
at time `T`, then any `detect_swipe` call for the same entity at a time
strictly before `T + swipe_cooldown` returns no event, no matter which
points were pushed in between. -/
theorem cooldown_law (s : TrackerState) (fid : ℤ) (T : ℚ) (ev : SwipeData)
    (s₁ : TrackerState) (hacc : detectSwipe s fid T = (some ev, s₁))
    (ops : List (ℤ × Point × ℚ)) (t : ℚ) (ht : t < T + s.swipe_cooldown) :
    (detectSwipe (applyOps s₁ ops) fid t).1 = none := by
  unfold detectSwipe at hacc
  split at hacc
  · exact absurd hacc (by simp)
  · next h1' =>
    split at hacc
    · exact absurd hacc (by simp)
    · split at hacc
      · exact absurd hacc (by simp)
      · split at hacc
        · rw [Prod.mk.injEq] at hacc
          obtain ⟨-, hs1⟩ := hacc
          have h1 : isValidTrail s fid = true := not_not.mp h1'
          have hsome₁ : (s₁.finger_trails fid).isSome = true := by
            rw [← hs1]; exact isValidTrail_isSome s fid h1
          have hlst : s₁.last_swipe_time fid = some T := by
            rw [← hs1]; exact Function.update_same fid (some T) s.last_swipe_time
          have hcd : s₁.swipe_cooldown = s.swipe_cooldown := by rw [← hs1]
          have inv := applyOps_preserves ops s₁ fid hsome₁
          rw [detectSwipe_of_cooldown (applyOps s₁ ops) fid t ?_]
          rw [inv.2.1, hlst, inv.2.2, hcd]
          show t - T < s.swipe_cooldown
          linarith
        · exact absurd hacc (by simp)

theorem cooldown_law_witness :
    (detectSwipe (applyOps shiftedAfter [(8, ((90 : ℤ), (0 : ℤ)), 13/5)]) 8 3).1 = none := by
  refine cooldown_law shiftedScenario 8 (12/5) shiftedEvent shiftedAfter shifted_accept
    [(8, ((90 : ℤ), (0 : ℤ)), 13/5)] 3 ?_
  show (3 : ℚ) < 12/5 + 2
  norm_num

theorem addPoint_max_points (s : TrackerState) (g : ℤ) (p : Point) (now : ℚ) :
    (addPoint s g p now).max_points = s.max_points := by
  by_cases h : (s.finger_trails g).isSome <;> simp [addPoint, h]

theorem pushMaxlen_length_le {α : Type} (l : List α) (x : α) (m : ℤ) (hm : 0 < m)
    (h : (l.length : ℤ) ≤ m) : ((pushMaxlen l x m).length : ℤ) ≤ m := by
  unfold pushMaxlen
  split
  · simp only [List.length_drop, List.length_append, List.length_singleton]
    omega
  · next hng =>
    simp only [not_lt] at hng
    simpa using hng

theorem pushMaxlen_of_full {α : Type} (l : List α) (x : α) (m : ℤ) (hm : 0 < m)
    (h : (l.length : ℤ) = m) : pushMaxlen l x m = l.tail ++ [x] := by
  unfold pushMaxlen
  rw [if_pos (by simp only [List.length_append, List.length_singleton]; omega)]
  have h1 : (l ++ [x]).length - m.toNat = 1 := by
    simp only [List.length_append, List.length_singleton]
    omega
  rw [h1, List.drop_one]
  cases l with
  | nil => simp only [List.length_nil, Nat.cast_zero] at h; omega
  | cons a l2 => simp

theorem pushMaxlen_of_lt {α : Type} (l : List α) (x : α) (m : ℤ)
    (h : (l.length : ℤ) < m) : pushMaxlen l x m = l ++ [x] := by
  unfold pushMaxlen
  rw [if_neg (by simp only [List.length_append, List.length_singleton]; omega)]

theorem addPoint_trails_self (s : TrackerState) (fid : ℤ) (p : Point) (now : ℚ) :
    (addPoint s fid p now).finger_trails fid =
      some (pushMaxlen ((s.finger_trails fid).getD []) p s.max_points) := by
  by_cases hsome : (s.finger_trails fid).isSome
  · simp [addPoint, hsome]
  · have hx : s.finger_trails fid = none := by
      cases hv : s.finger_trails fid with
      | none => rfl
      | some t => rw [hv] at hsome; exact absurd rfl hsome
    simp [addPoint, hsome, hx]

theorem addPoint_trails_other (s : TrackerState) (fid e : ℤ) (p : Point) (now : ℚ)
    (he : e ≠ fid) :
    (addPoint s fid p now).finger_trails e = s.finger_trails e := by
  by_cases hsome : (s.finger_trails fid).isSome <;>
    simp [addPoint, hsome, Function.update_noteq he]

theorem addPoint_bound (s : TrackerState) (g : ℤ) (p : Point) (now : ℚ)
    (hm : 0 < s.max_points)
    (h : ∀ e, (((s.finger_trails e).getD []).length : ℤ) ≤ s.max_points) :
    ∀ e, ((((addPoint s g p now).finger_trails e).getD []).length : ℤ) ≤ s.max_points := by
  intro e
  by_cases he : e = g
  · subst he
    rw [addPoint_trails_self]
    simp only [Option.getD_some]
    exact pushMaxlen_length_le _ _ _ hm (h e)
  · rw [addPoint_trails_other s g e p now he]
    exact h e

theorem applyOps_bound (ops : List (ℤ × Point × ℚ)) (s : TrackerState)
    (hm : 0 < s.max_points)
    (h : ∀ e, (((s.finger_trails e).getD []).length : ℤ) ≤ s.max_points) :
    (∀ e, ((((applyOps s ops).finger_trails e).getD []).length : ℤ) ≤ s.max_points) ∧
    (applyOps s ops).max_points = s.max_points := by
  induction ops generalizing s with
  | nil => exact ⟨h, rfl⟩
  | cons op rest ih =>
    have hmax := addPoint_max_points s op.1 op.2.1 op.2.2
    have step := addPoint_bound s op.1 op.2.1 op.2.2 hm h
    have tail := ih (addPoint s op.1 op.2.1 op.2.2) (hmax ▸ hm) (fun e => hmax ▸ step e)
    exact ⟨fun e => hmax ▸ tail.1 e, tail.2.trans hmax⟩

/-- C4: the bounded FIFO law.  Starting from a freshly constructed tracker
with a valid configuration (`max_points ≥ 3`), after any sequence of
`add_point` calls no entity's trail exceeds `max_points` samples, and the
next insertion on a full trail drops exactly the oldest sample while
appending the new one at the end (a below-capacity insertion keeps every
sample). -/
theorem fifo_bounded_law (mp : ℤ) (md mv : ℝ) (tt : ℚ) (hmp : 3 ≤ mp)
    (ops : List (ℤ × Point × ℚ)) (s : TrackerState)
    (hs : s = applyOps (init mp md mv tt) ops) :
    (∀ e, (((s.finger_trails e).getD []).length : ℤ) ≤ mp) ∧
    (∀ fid p now,
      ((((s.finger_trails fid).getD []).length : ℤ) = mp →
        (addPoint s fid p now).finger_trails fid =
          some (((s.finger_trails fid).getD []).tail ++ [p])) ∧
      ((((s.finger_trails fid).getD []).length : ℤ) < mp →
        (addPoint s fid p now).finger_trails fid =
          some ((s.finger_trails fid).getD [] ++ [p]))) := by
  have hm0 : (0 : ℤ) < mp := by omega
  have hb := applyOps_bound ops (init mp md mv tt) hm0 (fun e => by simp [init]; omega)
  subst hs
  refine ⟨hb.1, fun fid p now => ⟨?_, ?_⟩⟩
  · intro hfull
    rw [addPoint_trails_self, hb.2, show (init mp md mv tt).max_points = mp from rfl,
      pushMaxlen_of_full _ _ _ hm0 hfull]
  · intro hlt
    rw [addPoint_trails_self, hb.2, show (init mp md mv tt).max_points = mp from rfl,
      pushMaxlen_of_lt _ _ _ hlt]

theorem fifo_bounded_law_witness :
    ((((applyOps (init 3 40 50 2) fifoOps).finger_trails 1).getD []).length : ℤ) ≤ 3 ∧
    (addPoint (applyOps (init 3 40 50 2) fifoOps) 1 (9, 9) 1).finger_trails 1 =
      some ((((applyOps (init 3 40 50 2) fifoOps).finger_trails 1).getD []).tail
        ++ [(9, 9)]) :=
  ⟨(fifo_bounded_law 3 40 50 2 (by norm_num) fifoOps _ rfl).1 1,
    ((fifo_bounded_law 3 40 50 2 (by norm_num) fifoOps _ rfl).2 1 (9, 9) 1).1 (by decide)⟩

theorem distR_nonneg (p q : Point) : 0 ≤ distR p q := Real.sqrt_nonneg _

theorem pathLen_nonneg (trail : List Point) : 0 ≤ pathLen trail := by
  induction trail with
  | nil => simp [pathLen]
  | cons a rest ih =>
    cases rest with
    | nil => simp [pathLen]
    | cons b rest2 =>
      rw [show pathLen (a :: b :: rest2) = distR a b + pathLen (b :: rest2) from rfl]
      exact add_nonneg (distR_nonneg a b) ih

theorem calcSmoothness_nonneg (trail : List Point) : 0 ≤ calcSmoothness trail := by
  unfold calcSmoothness
  split
  · norm_num
  · split
    · norm_num
    · split
      · next hp =>
        exact le_min (div_nonneg (distR_nonneg _ _) (le_of_lt hp)) (by norm_num)
      · norm_num

theorem calcSmoothness_eq_spec (trail : List Point) (h3 : 3 ≤ trail.length) :
    calcSmoothness trail = smoothnessSpec trail := by
  unfold calcSmoothness smoothnessSpec
  rw [if_neg (by omega)]
  by_cases hE : distR (trail.headD (0, 0)) (trail.getLastD (0, 0)) = 0
  · rw [if_pos hE, if_pos (Or.inl hE)]
  · rw [if_neg hE]
    by_cases hP : pathLen trail > 0
    · rw [if_pos hP, if_neg (not_or.mpr ⟨hE, hP.ne'⟩)]
    · have hP0 : pathLen trail = 0 := le_antisymm (not_lt.mp hP) (pathLen_nonneg trail)
      rw [if_neg hP, if_pos (Or.inr hP0)]

theorem dotZ_le_sqrt_mul_sqrt (u w : ℤ × ℤ) :
    ((dotZ u w : ℤ) : ℝ) ≤ Real.sqrt ((u.1 ^ 2 + u.2 ^ 2 : ℤ) : ℝ) *
      Real.sqrt ((w.1 ^ 2 + w.2 ^ 2 : ℤ) : ℝ) := by
  rw [← Real.sqrt_mul (by positivity)]
  apply Real.le_sqrt_of_sq_le
  unfold dotZ
  push_cast
  nlinarith [sq_nonneg ((u.1 : ℝ) * w.2 - u.2 * w.1)]

theorem segDotSum_telescope (w : ℤ × ℤ) (a : Point) (rest : List Point) :
    segDotSum w (a :: rest) =
      dotZ (((a :: rest).getLastD (0, 0)).1 - a.1,
        ((a :: rest).getLastD (0, 0)).2 - a.2) w := by
  induction rest generalizing a with
  | nil => simp [segDotSum, dotZ]
  | cons b rest2 ih =>
    rw [show segDotSum w (a :: b :: rest2)
        = dotZ (b.1 - a.1, b.2 - a.2) w + segDotSum w (b :: rest2) from rfl, ih b]
    rw [show (a :: b :: rest2).getLastD (0, 0) = (b :: rest2).getLastD (0, 0) from rfl]
    unfold dotZ
    ring

theorem segDotSum_le_pathLen_mul (w : ℤ × ℤ) (trail : List Point) :
    ((segDotSum w trail : ℤ) : ℝ)
      ≤ pathLen trail * Real.sqrt ((w.1 ^ 2 + w.2 ^ 2 : ℤ) : ℝ) := by
  induction trail with
  | nil => simp [segDotSum, pathLen]
  | cons a rest ih =>
    cases rest with
    | nil => simp [segDotSum, pathLen]
    | cons b rest2 =>
      rw [show segDotSum w (a :: b :: rest2)
          = dotZ (b.1 - a.1, b.2 - a.2) w + segDotSum w (b :: rest2) from rfl,
        show pathLen (a :: b :: rest2) = distR a b + pathLen (b :: rest2) from rfl,
        Int.cast_add, add_mul]
      exact add_le_add (dotZ_le_sqrt_mul_sqrt (b.1 - a.1, b.2 - a.2) w) ih

theorem segDotSum_lt_pathLen_mul (w : ℤ × ℤ) (trail : List Point)
    (hx : ∃ pr ∈ trail.zip trail.tail,
      dotZ (pr.2.1 - pr.1.1, pr.2.2 - pr.1.2) w < 0) :
    ((segDotSum w trail : ℤ) : ℝ)
      < pathLen trail * Real.sqrt ((w.1 ^ 2 + w.2 ^ 2 : ℤ) : ℝ) := by
  induction trail with
  | nil => simp at hx
  | cons a rest ih =>
    cases rest with
    | nil => simp at hx
    | cons b rest2 =>
      obtain ⟨pr, hmem, hneg⟩ := hx
      rw [show (a :: b :: rest2).zip (a :: b :: rest2).tail
          = (a, b) :: (b :: rest2).zip ((b :: rest2).tail) from rfl] at hmem
      rw [show segDotSum w (a :: b :: rest2)
          = dotZ (b.1 - a.1, b.2 - a.2) w + segDotSum w (b :: rest2) from rfl,
        show pathLen (a :: b :: rest2) = distR a b + pathLen (b :: rest2) from rfl,
        Int.cast_add, add_mul]
      rcases List.mem_cons.mp hmem with heq | hmem2
      · subst heq
        refine add_lt_add_of_lt_of_le ?_ (segDotSum_le_pathLen_mul w (b :: rest2))
        calc ((dotZ (b.1 - a.1, b.2 - a.2) w : ℤ) : ℝ)
            < 0 := by exact_mod_cast hneg
          _ ≤ distR a b * Real.sqrt ((w.1 ^ 2 + w.2 ^ 2 : ℤ) : ℝ) :=
              mul_nonneg (distR_nonneg a b) (Real.sqrt_nonneg _)
      · exact add_lt_add_of_le_of_lt (dotZ_le_sqrt_mul_sqrt (b.1 - a.1, b.2 - a.2) w)
          (ih ⟨pr, hmem2, hneg⟩)

theorem sq_sum_pos_of_ne (p r : Point) (h : p ≠ r) :
    (0 : ℤ) < (r.1 - p.1) ^ 2 + (r.2 - p.2) ^ 2 := by
  have hne : r.1 - p.1 ≠ 0 ∨ r.2 - p.2 ≠ 0 := by
    by_contra hc
    push_neg at hc
    exact h (Prod.ext (by omega) (by omega))
  rcases hne with h1 | h1
  · have : 1 ≤ r.1 - p.1 ∨ r.1 - p.1 ≤ -1 := by omega
    rcases this with h2 | h2 <;> nlinarith [sq_nonneg (r.2 - p.2)]
  · have : 1 ≤ r.2 - p.2 ∨ r.2 - p.2 ≤ -1 := by omega
    rcases this with h2 | h2 <;> nlinarith [sq_nonneg (r.1 - p.1)]

theorem distR_pos_of_ne (p r : Point) (h : p ≠ r) : 0 < distR p r := by
  unfold distR
  rw [Real.sqrt_pos]
  exact_mod_cast sq_sum_pos_of_ne p r h

theorem between_dist_add (p q r : Point) (hb : Between p q r) (hpr : p ≠ r) :
    distR p q + distR q r = distR p r := by
  obtain ⟨hcross, hd0, hdc⟩ := hb
  unfold dotZ at hd0 hdc
  dsimp only at hd0 hdc
  have key : ((q.1 - p.1) * (r.1 - p.1) + (q.2 - p.2) * (r.2 - p.2)) ^ 2
      = ((q.1 - p.1) ^ 2 + (q.2 - p.2) ^ 2) * ((r.1 - p.1) ^ 2 + (r.2 - p.2) ^ 2) := by
    linear_combination (-((q.1 - p.1) * (r.2 - p.2) - (q.2 - p.2) * (r.1 - p.1))) * hcross
  have hC : (0 : ℤ) < (r.1 - p.1) ^ 2 + (r.2 - p.2) ^ 2 := sq_sum_pos_of_ne p r hpr
  have hac : (q.1 - p.1) ^ 2 + (q.2 - p.2) ^ 2 ≤ (r.1 - p.1) ^ 2 + (r.2 - p.2) ^ 2 := by
    nlinarith [key, hC, mul_self_le_mul_self hd0 hdc]
  have ha0 : (0 : ℝ) ≤ (((q.1 - p.1) ^ 2 + (q.2 - p.2) ^ 2 : ℤ) : ℝ) := by positivity
  have hc0 : (0 : ℝ) ≤ (((r.1 - p.1) ^ 2 + (r.2 - p.2) ^ 2 : ℤ) : ℝ) := by positivity
  have hd0R : (0 : ℝ) ≤ (((q.1 - p.1) * (r.1 - p.1) + (q.2 - p.2) * (r.2 - p.2) : ℤ) : ℝ) := by
    exact_mod_cast hd0
  have hmul : Real.sqrt (((r.1 - p.1) ^ 2 + (r.2 - p.2) ^ 2 : ℤ) : ℝ) *
      Real.sqrt (((q.1 - p.1) ^ 2 + (q.2 - p.2) ^ 2 : ℤ) : ℝ)
      = (((q.1 - p.1) * (r.1 - p.1) + (q.2 - p.2) * (r.2 - p.2) : ℤ) : ℝ) := by
    rw [mul_comm, ← Real.sqrt_mul ha0]
    rw [show (((q.1 - p.1) ^ 2 + (q.2 - p.2) ^ 2 : ℤ) : ℝ) *
        (((r.1 - p.1) ^ 2 + (r.2 - p.2) ^ 2 : ℤ) : ℝ)
        = (((q.1 - p.1) * (r.1 - p.1) + (q.2 - p.2) * (r.2 - p.2) : ℤ) : ℝ) ^ 2 from by
      exact_mod_cast key.symm]
    exact Real.sqrt_sq hd0R
  have hsqrt_le : Real.sqrt (((q.1 - p.1) ^ 2 + (q.2 - p.2) ^ 2 : ℤ) : ℝ)
      ≤ Real.sqrt (((r.1 - p.1) ^ 2 + (r.2 - p.2) ^ 2 : ℤ) : ℝ) :=
    Real.sqrt_le_sqrt (by exact_mod_cast hac)
  have hb' : (((r.1 - q.1) ^ 2 + (r.2 - q.2) ^ 2 : ℤ) : ℝ)
      = (Real.sqrt (((r.1 - p.1) ^ 2 + (r.2 - p.2) ^ 2 : ℤ) : ℝ)
        - Real.sqrt (((q.1 - p.1) ^ 2 + (q.2 - p.2) ^ 2 : ℤ) : ℝ)) ^ 2 := by
    conv_rhs => rw [sub_sq, Real.sq_sqrt hc0, Real.sq_sqrt ha0, mul_assoc, hmul]
    push_cast
    ring
  have hqr : distR q r = Real.sqrt (((r.1 - p.1) ^ 2 + (r.2 - p.2) ^ 2 : ℤ) : ℝ)
      - Real.sqrt (((q.1 - p.1) ^ 2 + (q.2 - p.2) ^ 2 : ℤ) : ℝ) := by
    unfold distR
    rw [hb', Real.sqrt_sq (sub_nonneg.mpr hsqrt_le)]
  show Real.sqrt (((q.1 - p.1) ^ 2 + (q.2 - p.2) ^ 2 : ℤ) : ℝ) + distR q r
      = Real.sqrt (((r.1 - p.1) ^ 2 + (r.2 - p.2) ^ 2 : ℤ) : ℝ)
  rw [hqr]
  ring

theorem between_smoothness_one (p q r : Point) (hb : Between p q r) (hpr : p ≠ r) :
    calcSmoothness [p, q, r] = 1 := by
  have hpos : 0 < distR p r := distR_pos_of_ne p r hpr
  have hpath : pathLen [p, q, r] = distR p r := by
    show distR p q + (distR q r + 0) = distR p r
    rw [add_zero]
    exact between_dist_add p q r hb hpr
  unfold calcSmoothness
  rw [if_neg (by norm_num)]
  show (if distR p r = 0 then 0
        else if pathLen [p, q, r] > 0 then min (distR p r / pathLen [p, q, r]) 1 else 0) = 1
  rw [if_neg hpos.ne', hpath, if_pos hpos, div_self hpos.ne', min_self]

theorem doublesBack_smoothness_lt_one (trail : List Point) (h3 : 3 ≤ trail.length)
    (hdb : doublesBack trail) : calcSmoothness trail < 1 := by
  obtain ⟨a, rest, rfl⟩ : ∃ a rest, trail = a :: rest := by
    cases trail with
    | nil => simp at h3
    | cons a rest => exact ⟨a, rest, rfl⟩
  by_cases hE : distR a ((a :: rest).getLastD (0, 0)) = 0
  · unfold calcSmoothness
    rw [if_neg (by omega)]
    simp only [List.headD_cons]
    rw [if_pos hE]
    norm_num
  · obtain ⟨pr, hmem, hneg⟩ := hdb
    have hstrict := segDotSum_lt_pathLen_mul
      (((a :: rest).getLastD (0, 0)).1 - a.1,
       ((a :: rest).getLastD (0, 0)).2 - a.2) (a :: rest) ⟨pr, hmem, hneg⟩
    rw [segDotSum_telescope] at hstrict
    dsimp only at hstrict
    have hE0 : 0 < distR a ((a :: rest).getLastD (0, 0)) :=
      lt_of_le_of_ne (distR_nonneg _ _) (Ne.symm hE)
    have hEeq : ((dotZ (((a :: rest).getLastD (0, 0)).1 - a.1,
        ((a :: rest).getLastD (0, 0)).2 - a.2)
        (((a :: rest).getLastD (0, 0)).1 - a.1,
         ((a :: rest).getLastD (0, 0)).2 - a.2) : ℤ) : ℝ)
        = distR a ((a :: rest).getLastD (0, 0)) ^ 2 := by
      rw [show distR a ((a :: rest).getLastD (0, 0)) ^ 2
          = (((((a :: rest).getLastD (0, 0)).1 - a.1) ^ 2
            + (((a :: rest).getLastD (0, 0)).2 - a.2) ^ 2 : ℤ) : ℝ) from
        Real.sq_sqrt (by positivity)]
      unfold dotZ
      push_cast
      ring
    have hsqrt_eq : Real.sqrt
        (((((a :: rest).getLastD (0, 0)).1 - a.1) ^ 2
          + (((a :: rest).getLastD (0, 0)).2 - a.2) ^ 2 : ℤ) : ℝ)
        = distR a ((a :: rest).getLastD (0, 0)) := rfl
    rw [hEeq, hsqrt_eq] at hstrict
    have hEP : distR a ((a :: rest).getLastD (0, 0)) < pathLen (a :: rest) := by
      nlinarith [hE0, hstrict]
    have hP0 : 0 < pathLen (a :: rest) := lt_trans hE0 hEP
    unfold calcSmoothness
    rw [if_neg (by omega)]
    simp only [List.headD_cons]
    rw [if_neg hE, if_pos hP0]
    exact lt_of_le_of_lt (min_le_left _ _) ((div_lt_one hP0).mpr hEP)

/-- C6: the smoothness of any trail of at least 3 samples equals the spec's
formula `min(straight / path, 1)` with 0 for the degenerate zero cases, and
is always nonnegative; a collinear monotonic 3-point trail has smoothness
exactly 1; a trail that doubles back (some segment moves against the net
displacement) has smoothness strictly below 1 and at least 0. -/
theorem smoothness_characterization :
    (∀ trail : List Point, 3 ≤ trail.length →
      calcSmoothness trail = smoothnessSpec trail ∧ 0 ≤ calcSmoothness trail) ∧
    (∀ p q r : Point, Between p q r → p ≠ r → calcSmoothness [p, q, r] = 1) ∧
    (∀ trail : List Point, 3 ≤ trail.length → doublesBack trail →
      calcSmoothness trail < 1 ∧ 0 ≤ calcSmoothness trail) :=
  ⟨fun trail h3 => ⟨calcSmoothness_eq_spec trail h3, calcSmoothness_nonneg trail⟩,
   fun p q r hb hpr => between_smoothness_one p q r hb hpr,
   fun trail h3 hdb => ⟨doublesBack_smoothness_lt_one trail h3 hdb,
     calcSmoothness_nonneg trail⟩⟩

theorem smoothness_characterization_witness :
    calcSmoothness [((0 : ℤ), (0 : ℤ)), (1, 0), (2, 0)]
      = smoothnessSpec [((0 : ℤ), (0 : ℤ)), (1, 0), (2, 0)] ∧
    calcSmoothness [((0 : ℤ), (0 : ℤ)), (1, 0), (2, 0)] = 1 ∧
    calcSmoothness [((0 : ℤ), (0 : ℤ)), (2, 0), (1, 0)] < 1 :=
  ⟨(smoothness_characterization.1 _ (by norm_num)).1,
   smoothness_characterization.2.1 (0, 0) (1, 0) (2, 0)
     (by refine ⟨?_, ?_, ?_⟩ <;> norm_num [dotZ]) (by decide),
   (smoothness_characterization.2.2 _ (by norm_num)
     ⟨((2, 0), (1, 0)), by decide, by decide⟩).1⟩

end SwipeTracking
